import Mathlib

/-!
Shallow embedding of the traffic-light detector node
(src/ros/src/tl_detector/tl_detector.py).

The node keeps a mutable state (the fields set in TLDetector.__init__) and
reacts to four callbacks: pose_cb, waypoints_cb, traffic_cb and image_cb.
Python floats are modelled as rationals; the camera image is an opaque
natural number and the external classifier is a function from images to
colors; Python exceptions surface as Option results; timestamps are
rationals fed explicitly to image_cb.
-/

namespace TLDet

/-- The styx_msgs TrafficLight color constants (RED=0, YELLOW=1, GREEN=2,
UNKNOWN=4). -/
inductive TLColor
  | RED
  | YELLOW
  | GREEN
  | UNKNOWN
deriving DecidableEq

/-- Numeric code of a color, as in the styx_msgs message definition. -/
def tlCode : TLColor → Nat
  | .RED => 0
  | .YELLOW => 1
  | .GREEN => 2
  | .UNKNOWN => 4

/-- A classification value as it flows through the Python code: either a
color constant (an int) or the literal False returned by get_light_state
when no image is available.  Python compares False and ints numerically
(False == 0), which pyCode reproduces. -/
def pyCode : Option TLColor → Nat
  | none => 0
  | some c => tlCode c

/-- Python equality between two stored classification values (int/bool
numeric equality). -/
def pyEq (a b : Option TLColor) : Bool :=
  pyCode a == pyCode b

/-- A 2-D position (waypoint coordinate, pose coordinate or stop-line
coordinate); Python floats modelled as rationals. -/
structure Point where
  x : ℚ
  y : ℚ
deriving DecidableEq

/-- Squared Euclidean distance; minimising it is equivalent to minimising
the Euclidean distance itself. -/
def sqDist (a b : Point) : ℚ :=
  (a.x - b.x) ^ 2 + (a.y - b.y) ^ 2

/-- Inner scan of the nearest query: walks the remaining points carrying
the index of the next point and the best (index, squared distance) so far;
a new point wins only with a strictly smaller distance, so the lowest
ordinal wins ties. -/
def nearestFrom (q : Point) : List Point → Nat → Nat × ℚ → Nat × ℚ
  | [], _, best => best
  | p :: ps, i, (bi, bd) =>
    if sqDist q p < bd then nearestFrom q ps (i + 1) (i, sqDist q p)
    else nearestFrom q ps (i + 1) (bi, bd)

/-- Modelled from the spec: the scipy KDTree.query call (the KDTree
library code is external, not under src).  Per the spec it returns the
ordinal of the waypoint whose Euclidean distance to the query is minimal,
ties resolving to the lowest ordinal.  On an empty tree it returns 0
(never queried in reachable flows). -/
def nearest (q : Point) : List Point → Nat
  | [] => 0
  | p :: ps => (nearestFrom q ps 1 (0, sqDist q p)).1

/-- TLDetector.get_closest_waypoint: self.waypoint_tree.query([x, y], 1)[1],
with the tree represented by the list of points it was built from. -/
def get_closest_waypoint (tree : List Point) (p : Point) : Nat :=
  nearest p tree

/-- The mutable fields of TLDetector, as set in __init__ and the
callbacks.  The Lane message is modelled by its list of waypoint
positions; self.lights only ever contributes its length, so it is a
count; waypoint_tree holds the list the KDTree was built over.
prev_light_loc is only ever written.  state, and hence last_state, can in
principle hold the Python False returned by get_light_state, hence the
Option TLColor type with none standing for False. -/
structure TLDetectorState where
  pose : Option Point
  waypoints : Option (List Point)
  camera_image : Option Nat
  lights : Nat
  waypoints_2d : Option (List Point)
  waypoint_tree : Option (List Point)
  config_stop_lines : List Point
  last_state : Option TLColor
  last_light_state : Option TLColor
  last_wp : Int
  state_count : Nat
  has_image : Bool
  state : Option TLColor
  last_img_processed : ℚ
  prev_light_loc : Option Unit
deriving DecidableEq

/-- STATE_COUNT_THRESHOLD = 3. -/
def STATE_COUNT_THRESHOLD : Nat := 3

/-- CAMERA_IMG_PROCESS_RATE = 0.5. -/
def CAMERA_IMG_PROCESS_RATE : ℚ := 1 / 2

/-- WAYPOINT_DIFFERENCE = 300. -/
def WAYPOINT_DIFFERENCE : Int := 300

/-- TLDetector.__init__: the initial field values (config is read from the
parameter server with no validation; its stop_line_positions list is the
argument). -/
def initState (config_stop_lines : List Point) : TLDetectorState where
  pose := none
  waypoints := none
  camera_image := none
  lights := 0
  waypoints_2d := none
  waypoint_tree := none
  config_stop_lines := config_stop_lines
  last_state := some .UNKNOWN
  last_light_state := none
  last_wp := -1
  state_count := 0
  has_image := false
  state := some .UNKNOWN
  last_img_processed := 0
  prev_light_loc := none

/-- TLDetector.pose_cb. -/
def pose_cb (s : TLDetectorState) (msg : Point) : TLDetectorState :=
  { s with pose := some msg }

/-- TLDetector.traffic_cb (self.lights = msg.lights; only the length is
ever used). -/
def traffic_cb (s : TLDetectorState) (lights : Nat) : TLDetectorState :=
  { s with lights := lights }

/-- Python falsiness of self.waypoints_2d: None or the empty list. -/
def waypoints2dFalsy : Option (List Point) → Bool
  | none => true
  | some l => l.isEmpty

/-- TLDetector.waypoints_cb: always stores the new route in
self.waypoints; builds waypoints_2d and the KDTree only when
waypoints_2d is still falsy. -/
def waypoints_cb (s : TLDetectorState) (route : List Point) : TLDetectorState :=
  let s1 := { s with waypoints := some route }
  if waypoints2dFalsy s1.waypoints_2d then
    { s1 with waypoints_2d := some route, waypoint_tree := some route }
  else s1

/-- TLDetector.get_light_state.  Returns the raw value the Python method
returns: none models the literal False of the no-image branch, some c the
classifier result.  The light argument of the Python method is unused and
dropped.  The cv_bridge conversion is the identity on the opaque image;
in reachable calls camera_image is always set (getD 0 is never the
default). -/
def get_light_state (cls : Nat → TLColor) (s : TLDetectorState) :
    Option TLColor × TLDetectorState :=
  if s.has_image == false then
    (none, { s with prev_light_loc := none })
  else
    let cv_image := s.camera_image.getD 0
    let result := cls cv_image
    if pyEq s.last_light_state (some result) == false then
      (some result, { s with last_light_state := some result })
    else
      (some result, s)

/-- The for-loop of process_traffic_lights (lines 163-171): iterates once
per element of self.lights, indexing stop_line_positions (none = Python
IndexError), carrying the running (diff, line_wp_idx); closest_light is
non-None exactly when line_wp_idx is, so only the ordinal is tracked. -/
def locateLoop (car_wp_idx : Nat) (tree : List Point) (stop_line_positions : List Point) :
    Nat → Nat → Int → Option Nat → Option (Int × Option Nat)
  | 0, _, diff, best => some (diff, best)
  | k + 1, i, diff, best =>
    match stop_line_positions[i]? with
    | none => none
    | some line =>
      let temp_wp_idx := get_closest_waypoint tree line
      let d : Int := (temp_wp_idx : Int) - (car_wp_idx : Int)
      if 0 ≤ d ∧ d < diff then
        locateLoop car_wp_idx tree stop_line_positions k (i + 1) d (some temp_wp_idx)
      else
        locateLoop car_wp_idx tree stop_line_positions k (i + 1) diff best

/-- The locator: the loop above followed by the horizon test of line 174,
with the horizon a parameter (process_traffic_lights instantiates it with
WAYPOINT_DIFFERENCE).  Outer none = IndexError escaped the loop; inner
none = no candidate (closest_light falsy or beyond the horizon). -/
def locate (car_wp_idx : Nat) (tree stop_line_positions : List Point)
    (lights : Nat) (diff0 : Int) (horizon : Int) : Option (Option Nat) :=
  match locateLoop car_wp_idx tree stop_line_positions lights 0 diff0 none with
  | none => none
  | some (_, some line_wp_idx) =>
    if (line_wp_idx : Int) - (car_wp_idx : Int) ≤ horizon then some (some line_wp_idx)
    else some none
  | some (_, none) => some none

/-- TLDetector.process_traffic_lights.  Returns none when the Python body
raises (stop-line IndexError, or len() of a missing waypoints list);
otherwise the (light_wp, state) pair plus the state as mutated by
get_light_state. -/
def process_traffic_lights (cls : Nat → TLColor) (s : TLDetectorState) :
    Option (Int × Option TLColor × TLDetectorState) :=
  let stop_line_positions := s.config_stop_lines
  match s.pose, s.waypoint_tree with
  | some pose, some tree =>
    match s.waypoints with
    | none => none
    | some wps =>
      let car_wp_idx := get_closest_waypoint tree pose
      let diff : Int := (wps.length : Int)
      match locate car_wp_idx tree stop_line_positions s.lights diff WAYPOINT_DIFFERENCE with
      | none => none
      | some (some line_wp_idx) =>
        let r := get_light_state cls s
        some ((line_wp_idx : Int), r.1, r.2)
      | some none => some (-1, some .UNKNOWN, s)
  | _, _ => some (-1, some .UNKNOWN, s)

/-- The debounce/publish block of image_cb (lines 103-113).  Returns the
updated state and the published value, if any; state comparisons go
through pyEq, matching Python int/bool equality. -/
def debounce (s : TLDetectorState) (light_wp : Int) (stateVal : Option TLColor) :
    TLDetectorState × Option Int :=
  if pyEq s.state stateVal == false then
    ({ s with state_count := 0 + 1, state := stateVal }, none)
  else if STATE_COUNT_THRESHOLD ≤ s.state_count then
    let light_wp2 := if pyCode stateVal == tlCode .RED then light_wp else -1
    ({ s with last_state := s.state, last_wp := light_wp2,
              state_count := s.state_count + 1 }, some light_wp2)
  else
    ({ s with state_count := s.state_count + 1 }, some s.last_wp)

/-- What one image_cb invocation did. -/
inductive Outcome
  | notReady
  | gated
  | errored
  | published (v : Int)
  | noPublish
deriving DecidableEq

/-- The writes image_cb performs after the gate and before
process_traffic_lights (lines 90-94): has_image, camera_image and
last_img_processed. -/
def preProcessState (now : ℚ) (img : Nat) (s : TLDetectorState) : TLDetectorState :=
  { s with has_image := true, camera_image := some img, last_img_processed := now }

/-- TLDetector.image_cb, with the timer() reads passed in as now and the
external classifier as cls.  An uncaught exception inside
process_traffic_lights aborts the callback after the pre-process writes
(Outcome.errored). -/
def image_cb (cls : Nat → TLColor) (now : ℚ) (img : Nat) (s : TLDetectorState) :
    TLDetectorState × Outcome :=
  match s.waypoint_tree with
  | none => (s, .notReady)
  | some _ =>
    let time_elapsed := now - s.last_img_processed
    if time_elapsed < CAMERA_IMG_PROCESS_RATE then (s, .gated)
    else
      let s1 := preProcessState now img s
      match process_traffic_lights cls s1 with
      | none => (s1, .errored)
      | some (light_wp, stateVal, s2) =>
        match debounce s2 light_wp stateVal with
        | (s3, some v) => (s3, .published v)
        | (s3, none) => (s3, .noPublish)

/-- Iterated debounce: feed a list of (candidate waypoint, classification)
pairs, collecting the per-tick publishes. -/
def debounceRun (s : TLDetectorState) :
    List (Int × Option TLColor) → TLDetectorState × List (Option Int)
  | [] => (s, [])
  | (lw, sv) :: rest =>
    let r1 := debounce s lw sv
    let r2 := debounceRun r1.1 rest
    (r2.1, r1.2 :: r2.2)

/-- The reachable states of the node: the initial state under any
configuration, closed under the four callbacks (each image event carries
its own timestamp, image and classifier behaviour). -/
inductive Reachable : TLDetectorState → Prop
  | init (config : List Point) : Reachable (initState config)
  | pose (s : TLDetectorState) (p : Point) : Reachable s → Reachable (pose_cb s p)
  | route (s : TLDetectorState) (wps : List Point) : Reachable s → Reachable (waypoints_cb s wps)
  | traffic (s : TLDetectorState) (n : Nat) : Reachable s → Reachable (traffic_cb s n)
  | image (s : TLDetectorState) (cls : Nat → TLColor) (now : ℚ) (img : Nat) :
      Reachable s → Reachable (image_cb cls now img s).1

/-! Helper lemmas about the pieces of the pipeline. -/

theorem get_light_state_fst (cls : Nat → TLColor) (s : TLDetectorState)
    (h : s.has_image = true) :
    (get_light_state cls s).1 = some (cls (s.camera_image.getD 0)) := by
  unfold get_light_state
  rw [h]
  split
  · simp_all
  · dsimp only
    split <;> rfl

theorem get_light_state_snd (cls : Nat → TLColor) (s : TLDetectorState) :
    ∃ pl ll, (get_light_state cls s).2 =
      { s with prev_light_loc := pl, last_light_state := ll } := by
  unfold get_light_state
  split
  · exact ⟨none, s.last_light_state, rfl⟩
  · dsimp only
    split
    · exact ⟨s.prev_light_loc, some (cls (s.camera_image.getD 0)), rfl⟩
    · exact ⟨s.prev_light_loc, s.last_light_state, rfl⟩

theorem process_shape (cls : Nat → TLColor) (s : TLDetectorState)
    (lw : Int) (sv : Option TLColor) (s2 : TLDetectorState)
    (h : process_traffic_lights cls s = some (lw, sv, s2)) :
    (∃ pl ll, s2 = { s with prev_light_loc := pl, last_light_state := ll }) ∧
    -1 ≤ lw ∧ (s.has_image = true → ∃ c, sv = some c) := by
  unfold process_traffic_lights at h
  dsimp only at h
  split at h
  case h_1 pose tree hp ht =>
    split at h
    · exact absurd h (by simp)
    · split at h
      · exact absurd h (by simp)
      · simp only [Option.some_inj, Prod.mk.injEq] at h
        obtain ⟨h1, h2, h3⟩ := h
        refine ⟨?_, by omega, ?_⟩
        · obtain ⟨pl, ll, hg⟩ := get_light_state_snd cls s
          exact ⟨pl, ll, by rw [← h3, hg]⟩
        · intro hi
          exact ⟨cls (s.camera_image.getD 0), by rw [← h2, get_light_state_fst cls s hi]⟩
      · simp only [Option.some_inj, Prod.mk.injEq] at h
        obtain ⟨h1, h2, h3⟩ := h
        subst h3
        exact ⟨⟨s.prev_light_loc, s.last_light_state, rfl⟩, by omega,
          fun _ => ⟨.UNKNOWN, h2.symm⟩⟩
  case h_2 =>
    simp only [Option.some_inj, Prod.mk.injEq] at h
    obtain ⟨h1, h2, h3⟩ := h
    subst h3
    exact ⟨⟨s.prev_light_loc, s.last_light_state, rfl⟩, by omega,
      fun _ => ⟨.UNKNOWN, h2.symm⟩⟩

theorem debounce_preserves (s : TLDetectorState) (lw : Int) (sv : Option TLColor) :
    ((debounce s lw sv).1).last_img_processed = s.last_img_processed ∧
    ((debounce s lw sv).1).waypoint_tree = s.waypoint_tree := by
  unfold debounce
  split
  · exact ⟨rfl, rfl⟩
  · split
    · exact ⟨rfl, rfl⟩
    · exact ⟨rfl, rfl⟩

theorem gate_rejects_at_zero : (0 : ℚ) - 0 < CAMERA_IMG_PROCESS_RATE := by
  norm_num [CAMERA_IMG_PROCESS_RATE]

theorem gate_passes_at_one : ¬ (1 : ℚ) - 0 < CAMERA_IMG_PROCESS_RATE := by
  norm_num [CAMERA_IMG_PROCESS_RATE]

theorem image_cb_gated (cls : Nat → TLColor) (now : ℚ) (img : Nat)
    (s : TLDetectorState) (t : List Point) (ht : s.waypoint_tree = some t)
    (hg : now - s.last_img_processed < CAMERA_IMG_PROCESS_RATE) :
    image_cb cls now img s = (s, .gated) := by
  unfold image_cb
  rw [ht]
  simp [hg]

theorem image_cb_run (cls : Nat → TLColor) (now : ℚ) (img : Nat)
    (s : TLDetectorState) (t : List Point) (ht : s.waypoint_tree = some t)
    (hg : ¬ now - s.last_img_processed < CAMERA_IMG_PROCESS_RATE) :
    image_cb cls now img s =
      match process_traffic_lights cls (preProcessState now img s) with
      | none => (preProcessState now img s, .errored)
      | some (light_wp, stateVal, s2) =>
        match debounce s2 light_wp stateVal with
        | (s3, some v) => (s3, .published v)
        | (s3, none) => (s3, .noPublish) := by
  unfold image_cb
  rw [ht]
  simp [hg]

/-! Claim C1. -/

/-- C1 counterexample: from the committed-UNKNOWN initial state with threshold 3,
feeding [RED, RED, RED] with candidate waypoint 120 does not commit RED on the
third observation: the run publishes [nothing, -1, -1] and the committed state
is still UNKNOWN afterwards, because the reset tick stores count 1 and the
threshold is compared before the increment. -/
theorem c1_counterexample :
    (debounceRun (initState []) [(120, some .RED), (120, some .RED), (120, some .RED)]).2 =
      [none, some (-1), some (-1)] ∧
    (debounceRun (initState [])
      [(120, some .RED), (120, some .RED), (120, some .RED)]).1.last_state = some .UNKNOWN :=
  ⟨rfl, rfl⟩

/-- C1 amended: for threshold 3, starting from committed state UNKNOWN, a run of
consecutive RED observations commits RED on the fourth observation, publishing
the supplied candidate waypoint on that fourth tick (the first three ticks
publish nothing, -1, -1). -/
theorem c1_amended_commits_on_fourth (w : Int) :
    (debounceRun (initState []) (List.replicate 4 (w, some .RED))).1.last_state = some .RED ∧
    (debounceRun (initState []) (List.replicate 4 (w, some .RED))).2 =
      [none, some (-1), some (-1), some w] :=
  ⟨rfl, rfl⟩

/-! Claim C2. -/

/-- C2 counterexample: a tick whose raw classification differs from the pending
state publishes nothing at all, instead of republishing the previous committed
decision: from the initial state (pending UNKNOWN) a RED tick yields no
publish. -/
theorem c2_counterexample :
    pyEq (initState []).state (some .RED) = false ∧
    (debounce (initState []) 120 (some .RED)).2 = none :=
  ⟨rfl, rfl⟩

/-- C2 amended: a tick that reaches the debouncer publishes exactly one value
when its raw classification agrees (in Python numeric equality) with the
tracked pending state, and publishes nothing when it differs. -/
theorem c2_amended_publish_iff_match (s : TLDetectorState) (lw : Int) (sv : Option TLColor) :
    (debounce s lw sv).2 = none ↔ pyEq s.state sv = false := by
  unfold debounce
  cases h : pyEq s.state sv
  · simp
  · rw [if_neg (by simp)]
    constructor
    · intro hc
      split at hc <;> simp_all
    · intro hc
      simp at hc

/-! Claim C3. -/

/-- C3 counterexample: last_img_processed starts at zero, yet the very first
image callback is not always accepted: with the index built and the first
frame arriving at timestamp 0, the gate rejects it since 0 - 0 < 0.5. -/
theorem c3_counterexample :
    (waypoints_cb (initState []) [⟨0, 0⟩]).last_img_processed = 0 ∧
    (image_cb (fun _ => .RED) 0 5 (waypoints_cb (initState []) [⟨0, 0⟩])).2 = .gated := by
  refine ⟨rfl, ?_⟩
  rw [image_cb_gated (fun _ => .RED) 0 5 (waypoints_cb (initState []) [⟨0, 0⟩]) [⟨0, 0⟩]
    rfl gate_rejects_at_zero]

/-- C3 amended: with the waypoint index built, the frame gate rejects exactly
when now - last_img_processed < CAMERA_IMG_PROCESS_RATE (so it accepts iff the
elapsed time reaches the interval); on an accepted tick last_img_processed
becomes now; last_img_processed is initialized to zero, so the first call is
accepted only when its timestamp is at least the interval. -/
theorem c3_amended_gate_iff (cls : Nat → TLColor) (now : ℚ) (img : Nat)
    (s : TLDetectorState) (c : List Point) (h : s.waypoint_tree ≠ none) :
    ((image_cb cls now img s).2 = .gated ↔
      now - s.last_img_processed < CAMERA_IMG_PROCESS_RATE) ∧
    ((image_cb cls now img s).2 ≠ .gated →
      (image_cb cls now img s).1.last_img_processed = now) ∧
    (initState c).last_img_processed = 0 := by
  obtain ⟨t, ht⟩ := Option.ne_none_iff_exists'.mp h
  by_cases hg : now - s.last_img_processed < CAMERA_IMG_PROCESS_RATE
  · rw [image_cb_gated cls now img s t ht hg]
    exact ⟨by simp [hg], by simp, rfl⟩
  · rw [image_cb_run cls now img s t ht hg]
    rcases hp : process_traffic_lights cls (preProcessState now img s) with _ | ⟨lw, sv, s2⟩
    · exact ⟨by simp [hg], fun _ => rfl, rfl⟩
    · have h2 : s2.last_img_processed = now := by
        obtain ⟨⟨pl, ll, hs2⟩, -, -⟩ := process_shape cls (preProcessState now img s) lw sv s2 hp
        rw [hs2]
        rfl
      rcases hd : debounce s2 lw sv with ⟨s3, v⟩
      have h3 : s3.last_img_processed = now := by
        have hs3 : s3 = (debounce s2 lw sv).1 := by rw [hd]
        rw [hs3, (debounce_preserves s2 lw sv).1, h2]
      dsimp only
      rw [hd]
      cases v
      · exact ⟨by simp [hg], fun _ => h3, rfl⟩
      · exact ⟨by simp [hg], fun _ => h3, rfl⟩

/-- C3 witness: a concrete accepted tick exercising the amended theorem. -/
theorem c3_witness :
    (waypoints_cb (initState []) [⟨0, 0⟩]).waypoint_tree ≠ none ∧
    (((image_cb (fun _ => .RED) 1 5 (waypoints_cb (initState []) [⟨0, 0⟩])).2 = .gated ↔
        1 - (waypoints_cb (initState []) [⟨0, 0⟩]).last_img_processed <
          CAMERA_IMG_PROCESS_RATE) ∧
      ((image_cb (fun _ => .RED) 1 5 (waypoints_cb (initState []) [⟨0, 0⟩])).2 ≠ .gated →
        (image_cb (fun _ => .RED) 1 5
          (waypoints_cb (initState []) [⟨0, 0⟩])).1.last_img_processed = 1) ∧
      (initState []).last_img_processed = 0) :=
  ⟨by decide,
    c3_amended_gate_iff (fun _ => .RED) 1 5 (waypoints_cb (initState []) [⟨0, 0⟩]) []
      (by decide)⟩

/-! Claim C4. -/

/-- C4 counterexample: with the index built, the gate passing and the pose
still unknown, the tick is not rejected silently: the pipeline feeds
UNKNOWN with candidate -1 to the debouncer and a value (-1) is published. -/
theorem c4_counterexample :
    (waypoints_cb (initState []) [⟨0, 0⟩]).pose = none ∧
    (image_cb (fun _ => .RED) 1 5 (waypoints_cb (initState []) [⟨0, 0⟩])).2 =
      .published (-1) := by
  refine ⟨rfl, ?_⟩
  rw [image_cb_run (fun _ => .RED) 1 5 (waypoints_cb (initState []) [⟨0, 0⟩]) [⟨0, 0⟩]
    rfl gate_passes_at_one]
  rfl

/-- C4 amended: if the pose is unknown when an image arrives (index built,
frame gate accepting), no classification is run — the outcome is the same for
every classifier — and the tick feeds UNKNOWN with candidate -1 into the
debouncer, publishing whatever the debouncer decides. -/
theorem c4_amended_unknown_fed (cls : Nat → TLColor) (now : ℚ) (img : Nat)
    (s : TLDetectorState) (hp : s.pose = none) (h : s.waypoint_tree ≠ none)
    (hg : ¬ now - s.last_img_processed < CAMERA_IMG_PROCESS_RATE) :
    image_cb cls now img s =
      (match debounce (preProcessState now img s) (-1) (some .UNKNOWN) with
       | (s3, some v) => (s3, Outcome.published v)
       | (s3, none) => (s3, Outcome.noPublish)) := by
  obtain ⟨t, ht⟩ := Option.ne_none_iff_exists'.mp h
  rw [image_cb_run cls now img s t ht hg]
  have hp1 : (preProcessState now img s).pose = none := hp
  have hproc : process_traffic_lights cls (preProcessState now img s) =
      some (-1, some .UNKNOWN, preProcessState now img s) := by
    unfold process_traffic_lights
    rw [hp1]
  rw [hproc]

/-- C4 witness: concrete instance of the amended theorem. -/
theorem c4_witness :
    (waypoints_cb (initState []) [⟨0, 0⟩]).pose = none ∧
    (waypoints_cb (initState []) [⟨0, 0⟩]).waypoint_tree ≠ none ∧
    ¬ 1 - (waypoints_cb (initState []) [⟨0, 0⟩]).last_img_processed <
        CAMERA_IMG_PROCESS_RATE ∧
    image_cb (fun _ => .RED) 1 5 (waypoints_cb (initState []) [⟨0, 0⟩]) =
      (match debounce (preProcessState 1 5 (waypoints_cb (initState []) [⟨0, 0⟩]))
          (-1) (some .UNKNOWN) with
       | (s3, some v) => (s3, Outcome.published v)
       | (s3, none) => (s3, Outcome.noPublish)) :=
  ⟨rfl, by decide, gate_passes_at_one,
    c4_amended_unknown_fed (fun _ => .RED) 1 5 (waypoints_cb (initState []) [⟨0, 0⟩])
      rfl (by decide) gate_passes_at_one⟩

/-! Claim C9. -/

/-- C9 counterexample: a route update delivered after the index is built is
not ignored: the stored waypoints field is overwritten, so building twice is
not a no-op on the state the locator reads (its initial diff bound is the
stored route's length). -/
theorem c9_counterexample :
    waypoints_cb (waypoints_cb (initState []) [⟨0, 0⟩]) [⟨0, 0⟩, ⟨1, 1⟩] ≠
      waypoints_cb (initState []) [⟨0, 0⟩] := by
  decide

/-- C9 amended: once waypoints_2d is set (non-falsy), a further route update
leaves the spatial index untouched — waypoints_2d and waypoint_tree are not
rebuilt — but it does overwrite the stored waypoints list with the new
route. -/
theorem c9_amended_index_kept (s : TLDetectorState) (route : List Point)
    (h : waypoints2dFalsy s.waypoints_2d = false) :
    waypoints_cb s route = { s with waypoints := some route } := by
  unfold waypoints_cb
  simp [h]

/-- C9 witness: concrete instance of the amended theorem. -/
theorem c9_witness :
    waypoints2dFalsy (waypoints_cb (initState []) [⟨0, 0⟩]).waypoints_2d = false ∧
    waypoints_cb (waypoints_cb (initState []) [⟨0, 0⟩]) [⟨0, 0⟩, ⟨1, 1⟩] =
      { waypoints_cb (initState []) [⟨0, 0⟩] with waypoints := some [⟨0, 0⟩, ⟨1, 1⟩] } :=
  ⟨by decide,
    c9_amended_index_kept (waypoints_cb (initState []) [⟨0, 0⟩]) [⟨0, 0⟩, ⟨1, 1⟩]
      (by decide)⟩

/-! Claim C10. -/

/-- C10: image_cb sets has_image before running classification, so whenever
get_light_state is invoked from an accepted image tick — that is, on the
state preProcessState produces — the no-image branch returning the Python
False sentinel is not taken and the result is exactly the external
classifier's output on the stored frame. -/
theorem c10_classifier_result_used (cls : Nat → TLColor) (now : ℚ) (img : Nat)
    (s : TLDetectorState) :
    (preProcessState now img s).has_image = true ∧
    (get_light_state cls (preProcessState now img s)).1 = some (cls img) :=
  ⟨rfl, get_light_state_fst cls (preProcessState now img s) rfl⟩

/-! Claim C7. -/

theorem locateLoop_oob (car : Nat) (tree stops : List Point) :
    ∀ (k i : Nat) (diff : Int) (best : Option Nat), i ≤ stops.length →
      stops.length < i + k →
      locateLoop car tree stops k i diff best = none := by
  intro k
  induction k with
  | zero =>
    intro i diff best h1 h2
    omega
  | succ k ih =>
    intro i diff best h1 h2
    unfold locateLoop
    rcases Nat.lt_or_ge i stops.length with hi | hi
    · rw [List.getElem?_eq_getElem hi]
      dsimp only
      split
      · exact ih (i + 1) _ _ (by omega) (by omega)
      · exact ih (i + 1) _ _ (by omega) (by omega)
    · rw [List.getElem?_eq_none hi]

/-- C7 counterexample: the configuration with an empty stop-line list is
accepted at startup without any validation; once one light is known and the
pipeline is otherwise ready, the very next accepted image tick aborts with an
out-of-range stop-line index at runtime — the opposite of a startup-time
fatal condition. -/
theorem c7_counterexample :
    (traffic_cb (pose_cb (waypoints_cb (initState []) [⟨0, 0⟩]) ⟨0, 0⟩)
        1).config_stop_lines.length <
      (traffic_cb (pose_cb (waypoints_cb (initState []) [⟨0, 0⟩]) ⟨0, 0⟩) 1).lights ∧
    (image_cb (fun _ => .RED) 1 7
      (traffic_cb (pose_cb (waypoints_cb (initState []) [⟨0, 0⟩]) ⟨0, 0⟩) 1)).2 =
        .errored := by
  refine ⟨by decide, ?_⟩
  rw [image_cb_run (fun _ => .RED) 1 7
    (traffic_cb (pose_cb (waypoints_cb (initState []) [⟨0, 0⟩]) ⟨0, 0⟩) 1) [⟨0, 0⟩]
    rfl gate_passes_at_one]
  rfl

/-- C7 amended: startup performs no validation of the stop-line list at all;
whenever the known light list is longer than the configured stop-line list,
every image tick that passes the index, pose and rate gates fails at runtime
with an out-of-range stop-line index (the callback aborts, publishing
nothing). -/
theorem c7_amended_runtime_index_error (cls : Nat → TLColor) (now : ℚ) (img : Nat)
    (s : TLDetectorState) (t : List Point) (p : Point) (wps : List Point)
    (ht : s.waypoint_tree = some t) (hp : s.pose = some p) (hw : s.waypoints = some wps)
    (hg : ¬ now - s.last_img_processed < CAMERA_IMG_PROCESS_RATE)
    (hlen : s.config_stop_lines.length < s.lights) :
    (image_cb cls now img s).2 = .errored := by
  rw [image_cb_run cls now img s t ht hg]
  have hproc : process_traffic_lights cls (preProcessState now img s) = none := by
    unfold process_traffic_lights preProcessState
    dsimp only
    rw [hp, ht, hw]
    dsimp only
    unfold locate
    rw [locateLoop_oob (get_closest_waypoint t p) t s.config_stop_lines s.lights 0
      ((wps.length : Int)) none (Nat.zero_le _) (by omega)]
  rw [hproc]

/-- C7 witness: concrete instance of the amended theorem (one light, no stop
lines). -/
theorem c7_witness :
    (traffic_cb (pose_cb (waypoints_cb (initState []) [⟨0, 0⟩]) ⟨0, 0⟩)
        1).waypoint_tree = some [⟨0, 0⟩] ∧
    (traffic_cb (pose_cb (waypoints_cb (initState []) [⟨0, 0⟩]) ⟨0, 0⟩) 1).pose =
      some ⟨0, 0⟩ ∧
    (traffic_cb (pose_cb (waypoints_cb (initState []) [⟨0, 0⟩]) ⟨0, 0⟩) 1).waypoints =
      some [⟨0, 0⟩] ∧
    (traffic_cb (pose_cb (waypoints_cb (initState []) [⟨0, 0⟩]) ⟨0, 0⟩)
        1).config_stop_lines.length <
      (traffic_cb (pose_cb (waypoints_cb (initState []) [⟨0, 0⟩]) ⟨0, 0⟩) 1).lights ∧
    (image_cb (fun _ => .GREEN) 2 9
      (traffic_cb (pose_cb (waypoints_cb (initState []) [⟨0, 0⟩]) ⟨0, 0⟩) 1)).2 =
        .errored :=
  ⟨rfl, rfl, rfl, by decide,
    c7_amended_runtime_index_error (fun _ => .GREEN) 2 9
      (traffic_cb (pose_cb (waypoints_cb (initState []) [⟨0, 0⟩]) ⟨0, 0⟩) 1)
      [⟨0, 0⟩] ⟨0, 0⟩ [⟨0, 0⟩] rfl rfl rfl
      (show ¬ (2 : ℚ) - 0 < CAMERA_IMG_PROCESS_RATE by
        norm_num [CAMERA_IMG_PROCESS_RATE]) (by decide)⟩

/-! Claim C8. -/

/-- Squared distance from the query to the waypoint at a given ordinal (out
of range defaults to the origin; the claims only use in-range ordinals). -/
def distToIdx (q : Point) (pts : List Point) (i : Nat) : ℚ :=
  sqDist q (pts.getD i ⟨0, 0⟩)

theorem nearestFrom_spec (q : Point) :
    ∀ (l : List Point) (i bi : Nat) (bd : ℚ), bi < i →
      ((nearestFrom q l i (bi, bd)).1 = bi ∧ (nearestFrom q l i (bi, bd)).2 = bd ∨
        ∃ j, ∃ hj : j < l.length, (nearestFrom q l i (bi, bd)).1 = i + j ∧
          (nearestFrom q l i (bi, bd)).2 = sqDist q (l.get ⟨j, hj⟩)) ∧
      (nearestFrom q l i (bi, bd)).2 ≤ bd ∧
      (∀ j, ∀ hj : j < l.length,
        (nearestFrom q l i (bi, bd)).2 ≤ sqDist q (l.get ⟨j, hj⟩)) ∧
      ((nearestFrom q l i (bi, bd)).2 = bd → (nearestFrom q l i (bi, bd)).1 = bi) ∧
      (∀ j, ∀ hj : j < l.length,
        sqDist q (l.get ⟨j, hj⟩) = (nearestFrom q l i (bi, bd)).2 →
        (nearestFrom q l i (bi, bd)).1 ≤ i + j) := by
  intro l
  induction l with
  | nil =>
    intro i bi bd hbi
    refine ⟨Or.inl ⟨rfl, rfl⟩, le_refl _, ?_, fun _ => rfl, ?_⟩
    · intro j hj
      exact absurd hj (by simp)
    · intro j hj
      exact absurd hj (by simp)
  | cons p ps ih =>
    intro i bi bd hbi
    unfold nearestFrom
    by_cases h : sqDist q p < bd
    · rw [if_pos h]
      obtain ⟨hmem, hle, hall, hacc, htie⟩ := ih (i + 1) i (sqDist q p) (by omega)
      refine ⟨?_, le_trans hle (le_of_lt h), ?_, ?_, ?_⟩
      · rcases hmem with ⟨h1, h2⟩ | ⟨j, hj, h1, h2⟩
        · exact Or.inr ⟨0, by simp, by omega, by simpa using h2⟩
        · exact Or.inr ⟨j + 1, by simpa using hj, by omega, by simpa using h2⟩
      · intro j hj
        cases j with
        | zero => simpa using hle
        | succ j => simpa using hall j (by simpa using hj)
      · intro he
        exact absurd he (by have := lt_of_le_of_lt hle h; intro hx; rw [hx] at this; simp at this)
      · intro j hj hsq
        cases j with
        | zero =>
          have h0 : (nearestFrom q ps (i + 1) (i, sqDist q p)).1 = i :=
            hacc (by simpa using hsq.symm)
          omega
        | succ j =>
          have := htie j (by simpa using hj) (by simpa using hsq)
          omega
    · rw [if_neg h]
      obtain ⟨hmem, hle, hall, hacc, htie⟩ := ih (i + 1) bi bd (by omega)
      refine ⟨?_, hle, ?_, hacc, ?_⟩
      · rcases hmem with ⟨h1, h2⟩ | ⟨j, hj, h1, h2⟩
        · exact Or.inl ⟨h1, h2⟩
        · exact Or.inr ⟨j + 1, by simpa using hj, by omega, by simpa using h2⟩
      · intro j hj
        cases j with
        | zero =>
          have hbd : bd ≤ sqDist q p := le_of_not_lt h
          simpa using le_trans hle hbd
        | succ j => simpa using hall j (by simpa using hj)
      · intro j hj hsq
        cases j with
        | zero =>
          have hbd : bd ≤ sqDist q p := le_of_not_lt h
          have h0 : sqDist q p = (nearestFrom q ps (i + 1) (bi, bd)).2 := by simpa using hsq
          have h1 : (nearestFrom q ps (i + 1) (bi, bd)).2 = bd :=
            le_antisymm hle (h0 ▸ hbd)
          have := hacc h1
          omega
        | succ j =>
          have := htie j (by simpa using hj) (by simpa using hsq)
          omega

/-- C8: the nearest query on a non-empty waypoint list returns an in-range
ordinal whose Euclidean distance (equivalently, squared distance) to the
query point is minimal, and among equally distant waypoints it returns the
lowest ordinal. -/
theorem c8_nearest_minimal (q : Point) (pts : List Point) (h : pts ≠ []) :
    nearest q pts < pts.length ∧
    (∀ j, j < pts.length → distToIdx q pts (nearest q pts) ≤ distToIdx q pts j) ∧
    (∀ j, j < pts.length → distToIdx q pts j = distToIdx q pts (nearest q pts) →
      nearest q pts ≤ j) := by
  match pts, h with
  | p :: ps, _ =>
    obtain ⟨hmem, hle, hall, hacc, htie⟩ := nearestFrom_spec q ps 1 0 (sqDist q p) (by omega)
    have hlen : nearest q (p :: ps) < (p :: ps).length := by
      rcases hmem with ⟨h1, _⟩ | ⟨j, hj, h1, _⟩
      · show (nearestFrom q ps 1 (0, sqDist q p)).1 < (p :: ps).length
        rw [h1]
        simp
      · show (nearestFrom q ps 1 (0, sqDist q p)).1 < (p :: ps).length
        rw [h1]
        simp
        omega
    have hval : distToIdx q (p :: ps) (nearest q (p :: ps)) =
        (nearestFrom q ps 1 (0, sqDist q p)).2 := by
      rcases hmem with ⟨h1, h2⟩ | ⟨j, hj, h1, h2⟩
      · show distToIdx q (p :: ps) (nearestFrom q ps 1 (0, sqDist q p)).1 = _
        rw [h1, h2]
        rfl
      · show distToIdx q (p :: ps) (nearestFrom q ps 1 (0, sqDist q p)).1 = _
        rw [h1, h2]
        unfold distToIdx
        congr 1
        rw [show (1 : Nat) + j = j + 1 by omega]
        simp [List.getD_eq_getElem?_getD, List.getElem?_eq_getElem hj]
    have hdist : ∀ j, ∀ hj : j < ps.length,
        distToIdx q (p :: ps) (j + 1) = sqDist q (ps.get ⟨j, hj⟩) := by
      intro j hj
      unfold distToIdx
      congr 1
      simp [List.getD_eq_getElem?_getD, List.getElem?_eq_getElem hj]
    refine ⟨hlen, ?_, ?_⟩
    · intro j hj
      rw [hval]
      cases j with
      | zero =>
        show _ ≤ distToIdx q (p :: ps) 0
        have : distToIdx q (p :: ps) 0 = sqDist q p := rfl
        rw [this]
        exact hle
      | succ j =>
        rw [hdist j (by simpa using hj)]
        exact hall j (by simpa using hj)
    · intro j hj hsq
      rw [hval] at hsq
      cases j with
      | zero =>
        have h0 : sqDist q p = (nearestFrom q ps 1 (0, sqDist q p)).2 := hsq
        have h1 : (nearestFrom q ps 1 (0, sqDist q p)).2 = sqDist q p := h0.symm
        have := hacc h1
        show (nearestFrom q ps 1 (0, sqDist q p)).1 ≤ 0
        omega
      | succ j =>
        rw [hdist j (by simpa using hj)] at hsq
        have := htie j (by simpa using hj) hsq
        show (nearestFrom q ps 1 (0, sqDist q p)).1 ≤ j + 1
        omega

/-- C8 witness: a concrete three-point tree with a tie: the query is
equidistant from ordinals 1 and 2, and nearest returns 1. -/
theorem c8_witness :
    ([⟨5, 5⟩, ⟨1, 0⟩, ⟨1, 0⟩] : List Point) ≠ [] ∧
    (nearest ⟨0, 0⟩ [⟨5, 5⟩, ⟨1, 0⟩, ⟨1, 0⟩] < ([⟨5, 5⟩, ⟨1, 0⟩, ⟨1, 0⟩] : List Point).length ∧
      (∀ j, j < ([⟨5, 5⟩, ⟨1, 0⟩, ⟨1, 0⟩] : List Point).length →
        distToIdx ⟨0, 0⟩ [⟨5, 5⟩, ⟨1, 0⟩, ⟨1, 0⟩] (nearest ⟨0, 0⟩ [⟨5, 5⟩, ⟨1, 0⟩, ⟨1, 0⟩]) ≤
          distToIdx ⟨0, 0⟩ [⟨5, 5⟩, ⟨1, 0⟩, ⟨1, 0⟩] j) ∧
      (∀ j, j < ([⟨5, 5⟩, ⟨1, 0⟩, ⟨1, 0⟩] : List Point).length →
        distToIdx ⟨0, 0⟩ [⟨5, 5⟩, ⟨1, 0⟩, ⟨1, 0⟩] j =
          distToIdx ⟨0, 0⟩ [⟨5, 5⟩, ⟨1, 0⟩, ⟨1, 0⟩] (nearest ⟨0, 0⟩ [⟨5, 5⟩, ⟨1, 0⟩, ⟨1, 0⟩]) →
        nearest ⟨0, 0⟩ [⟨5, 5⟩, ⟨1, 0⟩, ⟨1, 0⟩] ≤ j)) :=
  ⟨by decide, c8_nearest_minimal ⟨0, 0⟩ [⟨5, 5⟩, ⟨1, 0⟩, ⟨1, 0⟩] (by decide)⟩

/-! Claim C5. -/

/-- Proof-side restatement of the locator's for-loop on the already
projected stop ordinals (no indexing, no projection), used to relate
locateLoop to a plain minimum scan. -/
def scanMin (car : Nat) : List Nat → Int → Option Nat → Int × Option Nat
  | [], diff, best => (diff, best)
  | o :: os, diff, best =>
    let d : Int := (o : Int) - (car : Int)
    if 0 ≤ d ∧ d < diff then scanMin car os d (some o)
    else scanMin car os diff best

theorem locateLoop_eq_scanMin (car : Nat) (tree stops : List Point) :
    ∀ (k i : Nat) (diff : Int) (best : Option Nat), i + k ≤ stops.length →
      locateLoop car tree stops k i diff best =
        some (scanMin car
          (((stops.drop i).take k).map (fun p => get_closest_waypoint tree p)) diff best) := by
  intro k
  induction k with
  | zero =>
    intro i diff best h
    unfold locateLoop
    simp [scanMin]
  | succ k ih =>
    intro i diff best h
    have hi : i < stops.length := by omega
    unfold locateLoop
    rw [List.getElem?_eq_getElem hi]
    dsimp only
    rw [List.drop_eq_getElem_cons hi, List.take_succ_cons, List.map_cons]
    unfold scanMin
    dsimp only
    split
    · exact ih (i + 1) _ _ (by omega)
    · exact ih (i + 1) _ _ (by omega)

theorem scanMin_spec (car : Nat) :
    ∀ (os : List Nat) (diff : Int) (best : Option Nat),
      (∀ w, best = some w → 0 ≤ (w : Int) - (car : Int) ∧ diff = (w : Int) - (car : Int)) →
      ((scanMin car os diff best).1 ≤ diff) ∧
      (∀ o ∈ os, 0 ≤ (o : Int) - (car : Int) →
        (scanMin car os diff best).1 ≤ (o : Int) - (car : Int)) ∧
      (∀ w, (scanMin car os diff best).2 = some w →
        (w ∈ os ∨ best = some w) ∧ 0 ≤ (w : Int) - (car : Int) ∧
        (scanMin car os diff best).1 = (w : Int) - (car : Int)) ∧
      ((scanMin car os diff best).2 = none → best = none ∧
        (scanMin car os diff best).1 = diff ∧
        ∀ o ∈ os, ¬(0 ≤ (o : Int) - (car : Int) ∧ (o : Int) - (car : Int) < diff)) := by
  intro os
  induction os with
  | nil =>
    intro diff best hinv
    unfold scanMin
    dsimp only
    refine ⟨le_refl _, by simp, ?_, ?_⟩
    · intro w hw
      exact ⟨Or.inr hw, (hinv w hw).1, (hinv w hw).2⟩
    · intro hw
      exact ⟨hw, rfl, by simp⟩
  | cons o os ih =>
    intro diff best hinv
    unfold scanMin
    dsimp only
    by_cases hc : 0 ≤ (o : Int) - (car : Int) ∧ (o : Int) - (car : Int) < diff
    · rw [if_pos hc]
      obtain ⟨ih1, ih2, ih3, ih4⟩ := ih ((o : Int) - (car : Int)) (some o)
        (fun w hw => by
          rw [Option.some_inj] at hw
          subst hw
          exact ⟨hc.1, rfl⟩)
      refine ⟨le_trans ih1 (le_of_lt hc.2), ?_, ?_, ?_⟩
      · intro o2 ho2 hnn
        rcases List.mem_cons.mp ho2 with rfl | ho2
        · exact ih1
        · exact ih2 o2 ho2 hnn
      · intro w hw
        obtain ⟨hm, hnn, hv⟩ := ih3 w hw
        refine ⟨?_, hnn, hv⟩
        rcases hm with hm | hm
        · exact Or.inl (List.mem_cons_of_mem _ hm)
        · rw [Option.some_inj] at hm
          exact Or.inl (hm ▸ List.mem_cons_self _ _)
      · intro hw
        exact absurd (ih4 hw).1 (by simp)
    · rw [if_neg hc]
      obtain ⟨ih1, ih2, ih3, ih4⟩ := ih diff best hinv
      refine ⟨ih1, ?_, ?_, ?_⟩
      · intro o2 ho2 hnn
        rcases List.mem_cons.mp ho2 with rfl | ho2
        · have : diff ≤ (o2 : Int) - (car : Int) := by
            rcases not_and_or.mp hc with hx | hx
            · exact absurd hnn hx
            · omega
          exact le_trans ih1 this
        · exact ih2 o2 ho2 hnn
      · intro w hw
        obtain ⟨hm, hnn, hv⟩ := ih3 w hw
        refine ⟨?_, hnn, hv⟩
        rcases hm with hm | hm
        · exact Or.inl (List.mem_cons_of_mem _ hm)
        · exact Or.inr hm
      · intro hw
        obtain ⟨hb, hd, hrest⟩ := ih4 hw
        refine ⟨hb, hd, ?_⟩
        intro o2 ho2
        rcases List.mem_cons.mp ho2 with rfl | ho2
        · exact hc
        · exact hrest o2 ho2

theorem scanMin_fst_le (car : Nat) :
    ∀ (os : List Nat) (diff : Int) (best : Option Nat),
      (scanMin car os diff best).1 ≤ diff := by
  intro os
  induction os with
  | nil =>
    intro diff best
    unfold scanMin
    dsimp only
    exact le_refl _
  | cons o os ih =>
    intro diff best
    unfold scanMin
    dsimp only
    by_cases hc : 0 ≤ (o : Int) - (car : Int) ∧ (o : Int) - (car : Int) < diff
    · rw [if_pos hc]
      exact le_trans (ih _ _) (le_of_lt hc.2)
    · rw [if_neg hc]
      exact ih _ _

theorem scanMin_new_best_lt (car : Nat) :
    ∀ (os : List Nat) (diff : Int) (best : Option Nat),
      (scanMin car os diff best).2 ≠ best → (scanMin car os diff best).1 < diff := by
  intro os
  induction os with
  | nil =>
    intro diff best h
    unfold scanMin at h
    dsimp only at h
    exact absurd rfl h
  | cons o os ih =>
    intro diff best h
    unfold scanMin at h ⊢
    dsimp only at h ⊢
    by_cases hc : 0 ≤ (o : Int) - (car : Int) ∧ (o : Int) - (car : Int) < diff
    · rw [if_pos hc] at h ⊢
      exact lt_of_le_of_lt (scanMin_fst_le car os _ _) hc.2
    · rw [if_neg hc] at h ⊢
      exact ih _ _ h

/-- C5 counterexample: the locator's initial bound is the length of the
currently stored route, not of the route the tree was built from.  After a
route replacement shrinking the stored route to 2 waypoints while the tree
keeps 4, the single stop line projects to ordinal 3; its delta from the
vehicle at ordinal 0 is 3, non-negative and within the horizon 300, yet the
loop's d less-than diff test (3 less than 2) fails, so the locator returns no
candidate and the pipeline falls through to the minus-one/UNKNOWN branch —
refuting the claim that an in-horizon minimum non-negative delta is always
returned. -/
theorem c5_counterexample :
    get_closest_waypoint [⟨0, 0⟩, ⟨1, 0⟩, ⟨2, 0⟩, ⟨3, 0⟩] ⟨3, 0⟩ = 3 ∧
    get_closest_waypoint [⟨0, 0⟩, ⟨1, 0⟩, ⟨2, 0⟩, ⟨3, 0⟩] ⟨0, 0⟩ = 0 ∧
    ((3 : Int) - (0 : Int) ≤ WAYPOINT_DIFFERENCE) ∧
    locate 0 [⟨0, 0⟩, ⟨1, 0⟩, ⟨2, 0⟩, ⟨3, 0⟩] [⟨3, 0⟩] 1 2 WAYPOINT_DIFFERENCE = some none ∧
    (pose_cb (traffic_cb (waypoints_cb (waypoints_cb (initState [⟨3, 0⟩])
        [⟨0, 0⟩, ⟨1, 0⟩, ⟨2, 0⟩, ⟨3, 0⟩]) [⟨0, 0⟩, ⟨1, 0⟩]) 1) ⟨0, 0⟩).waypoint_tree =
      some [⟨0, 0⟩, ⟨1, 0⟩, ⟨2, 0⟩, ⟨3, 0⟩] ∧
    (pose_cb (traffic_cb (waypoints_cb (waypoints_cb (initState [⟨3, 0⟩])
        [⟨0, 0⟩, ⟨1, 0⟩, ⟨2, 0⟩, ⟨3, 0⟩]) [⟨0, 0⟩, ⟨1, 0⟩]) 1) ⟨0, 0⟩).waypoints =
      some [⟨0, 0⟩, ⟨1, 0⟩] ∧
    process_traffic_lights (fun _ => .RED)
      (pose_cb (traffic_cb (waypoints_cb (waypoints_cb (initState [⟨3, 0⟩])
          [⟨0, 0⟩, ⟨1, 0⟩, ⟨2, 0⟩, ⟨3, 0⟩]) [⟨0, 0⟩, ⟨1, 0⟩]) 1) ⟨0, 0⟩) =
      some (-1, some .UNKNOWN,
        pose_cb (traffic_cb (waypoints_cb (waypoints_cb (initState [⟨3, 0⟩])
          [⟨0, 0⟩, ⟨1, 0⟩, ⟨2, 0⟩, ⟨3, 0⟩]) [⟨0, 0⟩, ⟨1, 0⟩]) 1) ⟨0, 0⟩) := by
  have e3 : get_closest_waypoint [⟨0, 0⟩, ⟨1, 0⟩, ⟨2, 0⟩, ⟨3, 0⟩] (⟨3, 0⟩ : Point) = 3 := by
    norm_num [get_closest_waypoint, nearest, nearestFrom, sqDist]
  have e0 : get_closest_waypoint [⟨0, 0⟩, ⟨1, 0⟩, ⟨2, 0⟩, ⟨3, 0⟩] (⟨0, 0⟩ : Point) = 0 := by
    norm_num [get_closest_waypoint, nearest, nearestFrom, sqDist]
  have eloc : locate 0 [⟨0, 0⟩, ⟨1, 0⟩, ⟨2, 0⟩, ⟨3, 0⟩] [⟨3, 0⟩] 1 2 WAYPOINT_DIFFERENCE =
      some none := by
    norm_num [locate, locateLoop, e3]
  refine ⟨e3, e0, by norm_num [WAYPOINT_DIFFERENCE], eloc, rfl, rfl, ?_⟩
  unfold process_traffic_lights
  norm_num [pose_cb, traffic_cb, waypoints_cb, initState, waypoints2dFalsy, e0, eloc]

/-- C5 amended: with the loop's initial bound n being the stored route's
length, the locator (1) never raises when the light count equals the
stop-line count, (2) returns a stop-line ordinal only if it is a projected
stop line whose delta from the vehicle is non-negative, below n, within the
horizon and minimal among all non-negative deltas, and (3) returns no
candidate exactly when no stop line has a non-negative delta below n, or
every stop line with a non-negative delta below n lies beyond the horizon.
Stop lines whose delta reaches n are ignored even when they are ahead and
within the horizon. -/
theorem c5_locate_min_ahead_bounded (car : Nat) (tree stops : List Point) (n : Nat) (H : Int) :
    (∃ res, locate car tree stops stops.length (n : Int) H = some res) ∧
    (∀ w, locate car tree stops stops.length (n : Int) H = some (some w) →
      w ∈ stops.map (fun p => get_closest_waypoint tree p) ∧
      0 ≤ (w : Int) - (car : Int) ∧ (w : Int) - (car : Int) < (n : Int) ∧
      (w : Int) - (car : Int) ≤ H ∧
      (∀ o ∈ stops.map (fun p => get_closest_waypoint tree p),
        0 ≤ (o : Int) - (car : Int) → (w : Int) - (car : Int) ≤ (o : Int) - (car : Int))) ∧
    (locate car tree stops stops.length (n : Int) H = some none ↔
      ((∀ o ∈ stops.map (fun p => get_closest_waypoint tree p),
          ¬(0 ≤ (o : Int) - (car : Int) ∧ (o : Int) - (car : Int) < (n : Int))) ∨
       (∀ o ∈ stops.map (fun p => get_closest_waypoint tree p),
          0 ≤ (o : Int) - (car : Int) ∧ (o : Int) - (car : Int) < (n : Int) →
            H < (o : Int) - (car : Int)))) := by
  have hl : locateLoop car tree stops stops.length 0 (n : Int) none =
      some (scanMin car (stops.map (fun p => get_closest_waypoint tree p)) (n : Int) none) := by
    have := locateLoop_eq_scanMin car tree stops stops.length 0 (n : Int) none (by omega)
    simpa using this
  obtain ⟨s1, s2, s3, s4⟩ := scanMin_spec car (stops.map (fun p => get_closest_waypoint tree p))
    (n : Int) none (fun w hw => absurd hw (by simp))
  have hstrict := scanMin_new_best_lt car (stops.map (fun p => get_closest_waypoint tree p))
    (n : Int) none
  rcases hsm : scanMin car (stops.map (fun p => get_closest_waypoint tree p)) (n : Int) none
    with ⟨dd, bb⟩
  rw [hsm] at hl s1 s2 s3 s4 hstrict
  dsimp only at s1 s2 s3 s4 hstrict
  cases bb with
  | none =>
    have hloc : locate car tree stops stops.length (n : Int) H = some none := by
      unfold locate
      rw [hl]
    refine ⟨⟨none, hloc⟩, ?_, ?_⟩
    · intro w hw
      rw [hloc] at hw
      simp at hw
    · rw [hloc]
      constructor
      · intro _
        exact Or.inl (s4 rfl).2.2
      · intro _
        rfl
  | some w =>
    have hloc : locate car tree stops stops.length (n : Int) H =
        (if (w : Int) - (car : Int) ≤ H then some (some w) else some none) := by
      unfold locate
      rw [hl]
    obtain ⟨hm, hnn, hv⟩ := s3 w rfl
    have hwm : w ∈ stops.map (fun p => get_closest_waypoint tree p) := by
      rcases hm with hm | hm
      · exact hm
      · exact absurd hm (by simp)
    have hlt : dd < (n : Int) := hstrict (by simp)
    refine ⟨?_, ?_, ?_⟩
    · by_cases hwh : (w : Int) - (car : Int) ≤ H
      · exact ⟨some w, by rw [hloc, if_pos hwh]⟩
      · exact ⟨none, by rw [hloc, if_neg hwh]⟩
    · intro w2 hw2
      rw [hloc] at hw2
      split at hw2
      · rw [Option.some_inj, Option.some_inj] at hw2
        subst hw2
        refine ⟨hwm, hnn, by omega, by assumption, ?_⟩
        intro o ho honn
        rw [← hv]
        exact s2 o ho honn
      · simp at hw2
    · rw [hloc]
      constructor
      · intro hw2
        split at hw2
        · simp at hw2
        · refine Or.inr ?_
          rintro o ho ⟨honn, -⟩
          have hmin : dd ≤ (o : Int) - (car : Int) := s2 o ho honn
          omega
      · intro hcase
        rcases hcase with hneg | hfar
        · exact absurd (show 0 ≤ (w : Int) - (car : Int) ∧ (w : Int) - (car : Int) < (n : Int)
            from ⟨hnn, by omega⟩) (hneg w hwm)
        · rw [if_neg (by have := hfar w hwm ⟨hnn, by omega⟩; omega)]

/-! Claim C6. -/

/-- The pipeline invariant backing C6: the stored published waypoint is at
least -1 and is non-negative only with a RED committed state, and the
tracked pending state never holds the Python False sentinel. -/
def Inv (s : TLDetectorState) : Prop :=
  -1 ≤ s.last_wp ∧ (0 ≤ s.last_wp → s.last_state = some .RED) ∧ s.state ≠ none

theorem pyEq_some_red (a : Option TLColor) (ha : a ≠ none) (b : Option TLColor)
    (hb : b = some .RED) (h : pyEq a b = true) : a = some .RED := by
  subst hb
  cases a with
  | none => exact absurd rfl ha
  | some c => cases c <;> simp [pyEq, pyCode, tlCode] at h ⊢

theorem debounce_inv (s : TLDetectorState) (lw : Int) (sv : Option TLColor)
    (hinv : Inv s) (hlw : -1 ≤ lw) (hsv : sv ≠ none) :
    Inv (debounce s lw sv).1 ∧
    ∀ v, (debounce s lw sv).2 = some v →
      -1 ≤ v ∧ (0 ≤ v → (debounce s lw sv).1.last_state = some .RED) ∧
      ((debounce s lw sv).1.last_state ≠ some .RED → v = -1) := by
  unfold debounce
  by_cases h1 : (pyEq s.state sv == false) = true
  · rw [if_pos h1]
    dsimp only
    refine ⟨⟨hinv.1, hinv.2.1, hsv⟩, ?_⟩
    intro v hv
    simp at hv
  · rw [if_neg h1]
    dsimp only
    have hmatch : pyEq s.state sv = true := by simpa using h1
    by_cases h2 : STATE_COUNT_THRESHOLD ≤ s.state_count
    · rw [if_pos h2]
      dsimp only
      by_cases h3 : (pyCode sv == tlCode .RED) = true
      · rw [if_pos h3]
        have hsv_red : sv = some .RED := by
          cases sv with
          | none => exact absurd rfl hsv
          | some c => cases c <;> simp_all [pyCode, tlCode]
        have hstate_red : s.state = some .RED :=
          pyEq_some_red s.state hinv.2.2 sv hsv_red hmatch
        refine ⟨⟨hlw, fun _ => hstate_red, hinv.2.2⟩, ?_⟩
        intro v hv
        rw [Option.some_inj] at hv
        subst hv
        exact ⟨hlw, fun _ => hstate_red, fun hne => absurd hstate_red hne⟩
      · rw [if_neg h3]
        refine ⟨⟨le_refl _, fun hcon => absurd (show (0 : Int) ≤ -1 from hcon) (by norm_num),
          hinv.2.2⟩, ?_⟩
        intro v hv
        rw [Option.some_inj] at hv
        subst hv
        exact ⟨le_refl _, fun hcon => absurd (show (0 : Int) ≤ -1 from hcon) (by norm_num),
          fun _ => rfl⟩
    · rw [if_neg h2]
      dsimp only
      refine ⟨⟨hinv.1, hinv.2.1, hinv.2.2⟩, ?_⟩
      intro v hv
      rw [Option.some_inj] at hv
      subst hv
      refine ⟨hinv.1, hinv.2.1, ?_⟩
      intro hne
      by_cases hv0 : 0 ≤ s.last_wp
      · exact absurd (hinv.2.1 hv0) hne
      · have := hinv.1
        omega

theorem image_cb_preserves_inv (cls : Nat → TLColor) (now : ℚ) (img : Nat)
    (s : TLDetectorState) (hinv : Inv s) : Inv (image_cb cls now img s).1 := by
  unfold image_cb
  rcases htree : s.waypoint_tree with _ | t
  · exact hinv
  · dsimp only
    split
    · exact hinv
    · rcases hp : process_traffic_lights cls (preProcessState now img s) with _ | ⟨lw, sv, s2⟩
      · exact hinv
      · dsimp only
        have hinv1 : Inv (preProcessState now img s) := hinv
        obtain ⟨⟨pl, ll, hs2⟩, hlw, hsv⟩ :=
          process_shape cls (preProcessState now img s) lw sv s2 hp
        have hinv2 : Inv s2 := by
          rw [hs2]
          exact hinv1
        obtain ⟨c, hc⟩ := hsv rfl
        have hd := debounce_inv s2 lw sv hinv2 hlw (by rw [hc]; simp)
        rcases hdd : debounce s2 lw sv with ⟨s3, vv⟩
        rw [hdd] at hd
        cases vv
        · exact hd.1
        · exact hd.1

theorem reachable_inv : ∀ s, Reachable s → Inv s := by
  intro s hr
  induction hr with
  | init config =>
    exact ⟨le_refl _, fun h => absurd (show (0 : Int) ≤ -1 from h) (by norm_num),
      fun h => Option.noConfusion (show some TLColor.UNKNOWN = none from h)⟩
  | pose s p hr ih => exact ih
  | route s wps hr ih =>
    unfold waypoints_cb
    dsimp only
    split
    · exact ih
    · exact ih
  | traffic s n hr ih => exact ih
  | image s cls now img hr ih => exact image_cb_preserves_inv cls now img s ih

/-- C6: in every reachable state, a published stop_waypoint is non-negative
only if the committed classification after the tick is RED, and whenever the
committed classification is not RED the published value is -1. -/
theorem c6_red_only_nonneg (cls : Nat → TLColor) (now : ℚ) (img : Nat)
    (s s2 : TLDetectorState) (v : Int) (hr : Reachable s)
    (h : image_cb cls now img s = (s2, .published v)) :
    (0 ≤ v → s2.last_state = some .RED) ∧ (s2.last_state ≠ some .RED → v = -1) := by
  have hinv : Inv s := reachable_inv s hr
  unfold image_cb at h
  rcases htree : s.waypoint_tree with _ | t
  · rw [htree] at h
    simp at h
  · rw [htree] at h
    dsimp only at h
    split at h
    · simp at h
    · rcases hp : process_traffic_lights cls (preProcessState now img s) with _ | ⟨lw, sv, s2x⟩
      · rw [hp] at h
        simp at h
      · rw [hp] at h
        dsimp only at h
        have hinv1 : Inv (preProcessState now img s) := hinv
        obtain ⟨⟨pl, ll, hs2⟩, hlw, hsv⟩ :=
          process_shape cls (preProcessState now img s) lw sv s2x hp
        have hinv2 : Inv s2x := by
          rw [hs2]
          exact hinv1
        obtain ⟨c, hc⟩ := hsv rfl
        have hd := debounce_inv s2x lw sv hinv2 hlw (by rw [hc]; simp)
        rcases hdd : debounce s2x lw sv with ⟨s3, vv⟩
        rw [hdd] at h hd
        cases vv with
        | none => simp at h
        | some v2 =>
          dsimp only at h
          rw [Prod.mk.injEq] at h
          obtain ⟨h1, h2⟩ := h
          injection h2 with h2
          subst h1
          subst h2
          obtain ⟨hv1, hv2, hv3⟩ := hd.2 v2 rfl
          exact ⟨hv2, hv3⟩

/-- Evaluation of one concrete accepted tick used by the C6 witness: from a
reachable state with the route built and the pose known but no lights, the
tick publishes -1. -/
theorem c6_pub_eval :
    image_cb (fun _ => .GREEN) 1 4 (pose_cb (waypoints_cb (initState []) [⟨0, 0⟩]) ⟨0, 0⟩) =
      ((image_cb (fun _ => .GREEN) 1 4
          (pose_cb (waypoints_cb (initState []) [⟨0, 0⟩]) ⟨0, 0⟩)).1, .published (-1)) := by
  rw [image_cb_run (fun _ => .GREEN) 1 4
    (pose_cb (waypoints_cb (initState []) [⟨0, 0⟩]) ⟨0, 0⟩) [⟨0, 0⟩] rfl gate_passes_at_one]
  rfl

/-- C6 witness: the concrete reachable state and publish above instantiate
the theorem. -/
theorem c6_witness :
    Reachable (pose_cb (waypoints_cb (initState []) [⟨0, 0⟩]) ⟨0, 0⟩) ∧
    ((0 ≤ (-1 : Int) →
        (image_cb (fun _ => .GREEN) 1 4
          (pose_cb (waypoints_cb (initState []) [⟨0, 0⟩]) ⟨0, 0⟩)).1.last_state =
          some .RED) ∧
      ((image_cb (fun _ => .GREEN) 1 4
          (pose_cb (waypoints_cb (initState []) [⟨0, 0⟩]) ⟨0, 0⟩)).1.last_state ≠
          some .RED → (-1 : Int) = -1)) :=
  ⟨Reachable.pose _ _ (Reachable.route _ _ (Reachable.init [])),
    c6_red_only_nonneg (fun _ => .GREEN) 1 4
      (pose_cb (waypoints_cb (initState []) [⟨0, 0⟩]) ⟨0, 0⟩)
      (image_cb (fun _ => .GREEN) 1 4
        (pose_cb (waypoints_cb (initState []) [⟨0, 0⟩]) ⟨0, 0⟩)).1 (-1)
      (Reachable.pose _ _ (Reachable.route _ _ (Reachable.init [])))
      c6_pub_eval⟩

end TLDet
